import Mathlib

/-!
Verification of the mini-openfx transactional ledger and trade-settlement core.

The TypeScript source is shallowly embedded: scaled-money arithmetic from
`src/money.ts`, the balance ledger from `balance.service.ts`, the quote
lifecycle from `quote.service.ts`, trade execution from `trade.service.ts`,
and the price path from `price.service.ts` / `sor.service.ts`.  Machine
numbers are modelled as `Int` (JavaScript `number` holds integers exactly up
to 2^53, and `BigInt` arithmetic is exact); fallible operations return
`Except`; the SQLite row sets become explicit state.
-/

namespace MiniOpenFX

/-- Scale factor from money.ts: `export const SCALE = 100_000_000`. -/
def SCALE : Int := 100000000

/-- Quote TTL from types.ts: `export const QUOTE_TTL_MS = 30_000`. -/
def QUOTE_TTL_MS : Int := 30000

/-- Embeds `scaledMultiply` from money.ts:
`(BigInt(a) * BigInt(b)) / BigInt(SCALE)` then `Number(result)`.
JavaScript `BigInt` division truncates toward zero, which is `Int.tdiv`.
The final `Number(result)` coercion is exact whenever the quotient fits in
the double safe-integer range (|result| ≤ 2^53) and is modelled as the
identity; theorems that depend on exactness carry that bound. -/
def scaledMultiply (a b : Int) : Int :=
  Int.tdiv (a * b) SCALE

/-- Embeds `scaledDivide` from money.ts: fails on `b = 0`, otherwise
`(BigInt(a) * BigInt(SCALE)) / BigInt(b)` with truncating division. -/
def scaledDivide (a b : Int) : Option Int :=
  if b = 0 then none else some (Int.tdiv (a * SCALE) b)

/-- Embeds `fraction.toString().padStart(8, "0")` from `fromScaled`. -/
def padStart8 (s : String) : String :=
  String.mk (List.replicate (8 - s.length) '0') ++ s

/-- Embeds `fromScaled` from money.ts:
`integer = Math.floor(scaled / SCALE)` is floor division (`Int.fdiv`);
`fraction = Math.abs(scaled % SCALE)` — the JavaScript `%` operator keeps the
dividend's sign, so its absolute value is `|scaled| mod SCALE`.  The double
arithmetic is exact for |scaled| < 2^53, the range modelled here. -/
def fromScaled (scaled : Int) : String :=
  let integer : Int := Int.fdiv scaled SCALE
  let fraction : Nat := scaled.natAbs % 100000000
  toString integer ++ "." ++ padStart8 (toString fraction)

/-- Modelled from the spec: the rendering the specification describes for
`fromScaled` — the decimal value s / 10^8 with exactly 8 zero-padded
fractional digits and the sign prefixing the whole value
(e.g. -150000000 ↦ "-1.50000000").  Used to compare against the code's
`fromScaled`. -/
def specFromScaled (s : Int) : String :=
  let digits :=
    toString (s.natAbs / 100000000) ++ "." ++ padStart8 (toString (s.natAbs % 100000000))
  if s < 0 then "-" ++ digits else digits

/-- Trade side, from types.ts. -/
inductive Side
| BUY
| SELL
deriving DecidableEq

/-- Quote lifecycle status, from types.ts. -/
inductive QuoteStatus
| OPEN
| EXECUTED
| EXPIRED
deriving DecidableEq

/-- Trade execution type, from types.ts. -/
inductive TradeType
| MARKET
| RFQ
deriving DecidableEq

/-- The error kinds of errors.ts that the embedded operations can raise.
`Internal` stands for a storage-level failure (e.g. a PRIMARY KEY
violation surfacing as INTERNAL_ERROR). -/
inductive Err
| NotFound
| QuoteAlreadyExecuted
| QuoteExpired
| InsufficientBalance
| PairNotSupported
| Internal
deriving DecidableEq

abbrev AccountId := String
abbrev Ccy := String
abbrev QuoteId := String

/-- A row of the quotes table (schema.ts).  Timestamps are integers
(milliseconds), amounts and price are scaled integers. -/
structure QuoteRow where
  id : QuoteId
  accountId : AccountId
  baseCurrency : Ccy
  quoteCurrency : Ccy
  side : Side
  baseAmount : Int
  quoteAmount : Int
  price : Int
  expiresAt : Int
  status : QuoteStatus
  createdAt : Int
deriving DecidableEq

/-- A row of the trades table (schema.ts). -/
structure TradeRow where
  id : String
  accountId : AccountId
  quoteId : Option QuoteId
  type : TradeType
  baseCurrency : Ccy
  quoteCurrency : Ccy
  side : Side
  baseAmount : Int
  quoteAmount : Int
  price : Int
  executedAt : Int
  createdAt : Int
deriving DecidableEq

/-- The balances table: the UNIQUE(account_id, currency) constraint makes it
a partial map keyed on (account, currency); `none` means no row exists.
The `updated_at` column is not modelled (no claim mentions it). -/
def Balances := AccountId → Ccy → Option Int

/-- Point update of the balances map (row id / `updated_at` omitted). -/
def updateBal (bs : Balances) (a : AccountId) (c : Ccy) (v : Int) : Balances :=
  fun a' c' => if a' = a ∧ c' = c then some v else bs a' c'

/-- Embeds `getBalance` from balance.service.ts: `row?.amount ?? 0`. -/
def getBalance (bs : Balances) (a : AccountId) (c : Ccy) : Int :=
  (bs a c).getD 0

/-- Embeds `debit` from balance.service.ts: a single conditional UPDATE
`SET amount = amount - ?  WHERE account_id = ? AND currency = ? AND amount >= ?`;
zero affected rows (no row for the key, or the guard `amount >= ?` false)
raises InsufficientBalance. -/
def debit (bs : Balances) (a : AccountId) (c : Ccy) (amt : Int) :
    Except Err Balances :=
  match bs a c with
  | some v => if amt ≤ v then .ok (updateBal bs a c (v - amt)) else .error .InsufficientBalance
  | none => .error .InsufficientBalance

/-- Embeds `credit` from balance.service.ts: INSERT .. ON CONFLICT DO UPDATE
`SET amount = amount + ?` — an upsert on the (account, currency) key. -/
def credit (bs : Balances) (a : AccountId) (c : Ccy) (amt : Int) : Balances :=
  match bs a c with
  | some v => updateBal bs a c (v + amt)
  | none => updateBal bs a c amt

/-- The quotes table keyed on its PRIMARY KEY id. -/
def QuotesTable := QuoteId → Option QuoteRow

/-- UPDATE quotes SET status = ? WHERE id = ?. -/
def setQuoteStatus (qs : QuotesTable) (qid : QuoteId) (st : QuoteStatus) :
    QuotesTable :=
  fun id => if id = qid then (qs id).map (fun q => { q with status := st }) else qs id

/-- INSERT INTO quotes (caller has checked the id is fresh). -/
def insertQuote (qs : QuotesTable) (qid : QuoteId) (q : QuoteRow) : QuotesTable :=
  fun id => if id = qid then some q else qs id

/-- The full persisted state: balances, quotes and trades row sets. -/
structure DB where
  balances : Balances
  quotes : QuotesTable
  trades : List TradeRow

/-- Embeds `executeTradeTx` from trade.service.ts: one SQLite transaction
performing debit → credit → optional quote EXECUTED update → trade insert.
`sqlite.transaction()` rolls everything back on a thrown error, so the
failure case returns no state: the caller keeps the pre-state. -/
def executeTradeTx (db : DB) (accountId : AccountId)
    (baseCurrency quoteCurrency : Ccy) (side : Side)
    (baseAmount quoteAmount price : Int) (type : TradeType)
    (quoteId : Option QuoteId) (tradeId : String) (now : Int) :
    Except Err DB :=
  let debitCurrency := if side = .BUY then quoteCurrency else baseCurrency
  let debitAmount := if side = .BUY then quoteAmount else baseAmount
  let creditCurrency := if side = .BUY then baseCurrency else quoteCurrency
  let creditAmount := if side = .BUY then baseAmount else quoteAmount
  match debit db.balances accountId debitCurrency debitAmount with
  | .error e => .error e
  | .ok bs1 =>
    let bs2 := credit bs1 accountId creditCurrency creditAmount
    let qs := match quoteId with
      | some qid => setQuoteStatus db.quotes qid .EXECUTED
      | none => db.quotes
    let trade : TradeRow :=
      { id := tradeId, accountId := accountId, quoteId := quoteId, type := type
        baseCurrency := baseCurrency, quoteCurrency := quoteCurrency, side := side
        baseAmount := baseAmount, quoteAmount := quoteAmount, price := price
        executedAt := now, createdAt := now }
    .ok { balances := bs2, quotes := qs, trades := trade :: db.trades }

/-- Embeds `executeTrade` from trade.service.ts: computes
`quoteAmount = scaledMultiply(baseAmount, price)`, runs the transaction and
returns the inserted trade record (the source builds its response from the
same values it inserted).  `tradeId` stands for `crypto.randomUUID()` and
`now` for `Date.now()`. -/
def executeTrade (db : DB) (accountId : AccountId)
    (baseCurrency quoteCurrency : Ccy) (side : Side)
    (baseAmount price : Int) (type : TradeType) (quoteId : Option QuoteId)
    (tradeId : String) (now : Int) : DB × Except Err TradeRow :=
  let quoteAmount := scaledMultiply baseAmount price
  match executeTradeTx db accountId baseCurrency quoteCurrency side
      baseAmount quoteAmount price type quoteId tradeId now with
  | .error e => (db, .error e)
  | .ok db' =>
    (db', .ok
      { id := tradeId, accountId := accountId, quoteId := quoteId, type := type
        baseCurrency := baseCurrency, quoteCurrency := quoteCurrency, side := side
        baseAmount := baseAmount, quoteAmount := quoteAmount, price := price
        executedAt := now, createdAt := now })

/-- The awaited SELECT at the start of `executeRfqTrade`: reads the quote row
snapshot.  Split out because the SELECT resolves in its own event-loop
microtask, before the continuation that validates and commits runs. -/
def rfqSelect (db : DB) (quoteId : QuoteId) : Option QuoteRow :=
  db.quotes quoteId

/-- The continuation of `executeRfqTrade` after its SELECT: validation of the
snapshot (ownership → EXECUTED → EXPIRED / past `expiresAt`, expiring as a
side effect) followed by the shared commit routine.  All checks run against
the `snapshot` the SELECT returned; all writes run against the current
state `db` — exactly the source's check-then-act structure. -/
def rfqContinue (db : DB) (snapshot : Option QuoteRow) (now : Int)
    (accountId : AccountId) (quoteId : QuoteId) (tradeId : String) :
    DB × Except Err TradeRow :=
  match snapshot with
  | none => (db, .error .NotFound)
  | some q =>
    if q.accountId ≠ accountId then (db, .error .NotFound)
    else if q.status = .EXECUTED then (db, .error .QuoteAlreadyExecuted)
    else if q.status = .EXPIRED ∨ q.expiresAt < now then
      let db' := if q.status = .EXPIRED then db
        else { db with quotes := setQuoteStatus db.quotes quoteId .EXPIRED }
      (db', .error .QuoteExpired)
    else
      executeTrade db accountId q.baseCurrency q.quoteCurrency q.side
        q.baseAmount q.price .RFQ (some quoteId) tradeId now

/-- Embeds `executeRfqTrade` from trade.service.ts, run without interleaving:
the SELECT and its continuation execute back to back on the same state. -/
def executeRfqTrade (db : DB) (now : Int) (accountId : AccountId)
    (quoteId : QuoteId) (tradeId : String) : DB × Except Err TradeRow :=
  rfqContinue db (rfqSelect db quoteId) now accountId quoteId tradeId

/-- Pair configuration entry, from types.ts. -/
structure SupportedPair where
  symbol : String
  base : Ccy
  quote : Ccy
deriving DecidableEq

/-- The fixed pair configuration from types.ts. -/
def SUPPORTED_PAIRS : List SupportedPair :=
  [⟨"EURUSDT", "EUR", "USDT"⟩, ⟨"BTCUSDT", "BTC", "USDT"⟩]

/-- Embeds the `SUPPORTED_PAIRS.some(...)` membership check shared by
`executeMarketTrade` (trade.service.ts) and `validatePair`
(quote.service.ts): the pair is accepted in either orientation. -/
def pairSupported (base quote : Ccy) : Bool :=
  SUPPORTED_PAIRS.any fun p =>
    (p.base == base && p.quote == quote) || (p.quote == base && p.base == quote)

/-- Embeds the normalization in `findPair` (price.service.ts): uppercase the
input, then strip the separator characters underscore, slash and hyphen
(the `replace` with the global separator character class). -/
def normalizePair (s : String) : String :=
  String.mk ((s.toList.map Char.toUpper).filter
    fun ch => ch ≠ '_' ∧ ch ≠ '/' ∧ ch ≠ '-')

/-- Embeds `findPair` from price.service.ts: first configured pair whose
symbol, base++quote, or quote++base concatenation matches the normalized
input. -/
def findPair (pairStr : String) : Option SupportedPair :=
  let normalized := normalizePair pairStr
  SUPPORTED_PAIRS.find? fun p =>
    p.symbol == normalized || (p.base ++ p.quote) == normalized ||
      (p.quote ++ p.base) == normalized

/-- Embeds `getMarketPrice` from price.service.ts.  The Binance ticker fetch
and `parsePrice` string parsing are the environment: `fetch symbol` stands
for `parsePrice((await fetchTickerPrice(symbol)).price)`, the scaled price
obtained for a Binance symbol. -/
def getMarketPrice (fetch : String → Int) (baseCurrency quoteCurrency : Ccy) :
    Except Err Int :=
  match findPair (baseCurrency ++ quoteCurrency) with
  | none => .error .PairNotSupported
  | some p => .ok (fetch p.symbol)

/-- Embeds `executeMarketTrade` from trade.service.ts: the two-orientation
pair check, then the price from `getMarketPrice`, then the shared commit
routine with type MARKET and no quote id.  `baseAmount` is the already
scaled `toScaled(amount)` (the float rounding in `toScaled` is the
HTTP-boundary environment). -/
def executeMarketTrade (db : DB) (now : Int) (accountId : AccountId)
    (baseCurrency quoteCurrency : Ccy) (side : Side) (baseAmount : Int)
    (tradeId : String) (fetch : String → Int) : DB × Except Err TradeRow :=
  if pairSupported baseCurrency quoteCurrency then
    match getMarketPrice fetch baseCurrency quoteCurrency with
    | .error e => (db, .error e)
    | .ok price =>
      executeTrade db accountId baseCurrency quoteCurrency side baseAmount
        price .MARKET none tradeId now
  else (db, .error .PairNotSupported)

/-- Embeds `createQuote` from quote.service.ts: validates the pair, computes
`baseAmount = toScaled(amount)` (passed in already scaled), obtains the
execution `price` (environment, see `getBestQuote` below), computes
`quoteAmount = scaledMultiply(baseAmount, price)` and inserts an OPEN quote
expiring at `now + QUOTE_TTL_MS`.  `qid` stands for `crypto.randomUUID()`;
inserting an id that already exists violates the PRIMARY KEY and surfaces
as an Internal storage error with nothing written. -/
def createQuote (db : DB) (now : Int) (accountId : AccountId)
    (baseCurrency quoteCurrency : Ccy) (side : Side)
    (baseAmount price : Int) (qid : QuoteId) : DB × Except Err QuoteRow :=
  if pairSupported baseCurrency quoteCurrency then
    match db.quotes qid with
    | some _ => (db, .error .Internal)
    | none =>
      let q : QuoteRow :=
        { id := qid, accountId := accountId, baseCurrency := baseCurrency
          quoteCurrency := quoteCurrency, side := side, baseAmount := baseAmount
          quoteAmount := scaledMultiply baseAmount price, price := price
          expiresAt := now + QUOTE_TTL_MS, status := .OPEN, createdAt := now }
      ({ db with quotes := insertQuote db.quotes qid q }, .ok q)
  else (db, .error .PairNotSupported)

/-- Embeds `getQuote` from quote.service.ts: ownership-checked lookup with
lazy expiry — an OPEN quote past `expiresAt` is updated to EXPIRED and
returned with that status. -/
def getQuote (db : DB) (now : Int) (accountId : AccountId) (qid : QuoteId) :
    DB × Except Err QuoteRow :=
  match db.quotes qid with
  | none => (db, .error .NotFound)
  | some row =>
    if row.accountId ≠ accountId then (db, .error .NotFound)
    else if row.status = .OPEN ∧ row.expiresAt < now then
      ({ db with quotes := setQuoteStatus db.quotes qid .EXPIRED },
        .ok { row with status := .EXPIRED })
    else (db, .ok row)

/-- One public operation against the store, with its environment inputs
(`now` for `Date.now()`, generated ids, externally fetched prices) made
explicit. -/
inductive Op
| create (now : Int) (accountId : AccountId) (baseCurrency quoteCurrency : Ccy)
    (side : Side) (baseAmount price : Int) (qid : QuoteId)
| read (now : Int) (accountId : AccountId) (qid : QuoteId)
| rfq (now : Int) (accountId : AccountId) (qid : QuoteId) (tradeId : String)
| market (now : Int) (accountId : AccountId) (baseCurrency quoteCurrency : Ccy)
    (side : Side) (baseAmount : Int) (tradeId : String) (fetch : String → Int)

/-- State reached after one public operation. -/
def applyOp (db : DB) : Op → DB
| .create now acct base quote side amt price qid =>
  (createQuote db now acct base quote side amt price qid).1
| .read now acct qid => (getQuote db now acct qid).1
| .rfq now acct qid tid => (executeRfqTrade db now acct qid tid).1
| .market now acct base quote side amt tid fetch =>
  (executeMarketTrade db now acct base quote side amt tid fetch).1

/-- State reached after a sequence of public operations. -/
def applyOps (db : DB) (ops : List Op) : DB :=
  ops.foldl applyOp db

/-- A venue quote from sor.service.ts (`Quote` in types.ts; renamed here to
avoid clashing with the RFQ quote rows). -/
structure VenueQuote where
  source : String
  bid : Int
  ask : Int
deriving DecidableEq

/-- `Math.round(x * (num / den))` on an integer input, modelled exactly over
the rationals: round half toward positive infinity of x·num/den, i.e.
⌊(2·x·num + den) / (2·den)⌋.  The double computation in the source agrees
with this exact value whenever x·num/den is farther than the float error
(well under 1e-6 here) from a half-integer, which holds at every input
these theorems evaluate. -/
def jsRoundScale (x num den : Int) : Int :=
  Int.fdiv (2 * x * num + den) (2 * den)

/-- Venue fetch mocks from sor.service.ts.  Binance passes the real bid/ask
through; MassiveFX shades them by ±0.01%; CoinGecko by ±0.02%. -/
def fetchBinance (binanceBid binanceAsk : Int) : VenueQuote :=
  ⟨"Binance", binanceBid, binanceAsk⟩

def fetchMassiveFX (binanceBid binanceAsk : Int) : VenueQuote :=
  ⟨"MassiveFX", jsRoundScale binanceBid 9999 10000, jsRoundScale binanceAsk 10001 10000⟩

def fetchCoinGecko (binanceBid binanceAsk : Int) : VenueQuote :=
  ⟨"CoinGecko", jsRoundScale binanceBid 9998 10000, jsRoundScale binanceAsk 10002 10000⟩

/-- Embeds `getBestQuote` from sor.service.ts: the three venue fetches are
pure and always fulfil, the list is stably sorted by ascending ask for BUY
or descending bid for SELL (JavaScript `Array.prototype.sort` is stable;
a stable sort of a given list under a total preorder is unique, so the
insertion sort used here yields the same list), and the head wins; the
returned price is the winner's ask for BUY, bid for SELL.  The empty case
is unreachable (three fulfilled quotes). -/
def getBestQuote (binanceBid binanceAsk : Int) (side : Side) : Int :=
  let qs := [fetchBinance binanceBid binanceAsk,
    fetchMassiveFX binanceBid binanceAsk,
    fetchCoinGecko binanceBid binanceAsk]
  let sorted := if side = .BUY then qs.insertionSort (fun a b => a.ask ≤ b.ask)
    else qs.insertionSort (fun a b => b.bid ≤ a.bid)
  match sorted with
  | [] => 0
  | best :: _ => if side = .BUY then best.ask else best.bid

/-- Embeds the price computation of `getExecutionPrice`
(price.service.ts) as used by `createQuote`: the Binance book ticker's
parsed bid and ask go through `getBestQuote`, and its `price` field is the
execution price.  `SPREAD_MARKUP` is imported there but appears in no
computation. -/
def getExecutionPrice (binanceBid binanceAsk : Int) (side : Side) : Int :=
  getBestQuote binanceBid binanceAsk side

/-- The spread markup constant from types.ts, as a scaled integer:
`SPREAD_MARKUP = 0.001`, i.e. `toScaled(0.001) = 100000`. -/
def SPREAD_MARKUP_SCALED : Int := 100000

/-- The empty balances table. -/
def emptyBalances : Balances := fun _ _ => none

/-- The empty quotes table. -/
def emptyQuotes : QuotesTable := fun _ => none

/-- Balances used by concrete witnesses: account a1 holds 1000 USDT and
20 EUR (scaled). -/
def exampleBalances : Balances :=
  updateBal (updateBal emptyBalances "a1" "USDT" 100000000000) "a1" "EUR" 2000000000

/-- An OPEN SELL quote for 5 EUR at price 1.17920000, as `createQuote`
stores it: quoteAmount = scaledMultiply(baseAmount, price) = 589600000. -/
def exampleQuote : QuoteRow :=
  { id := "q1", accountId := "a1", baseCurrency := "EUR", quoteCurrency := "USDT"
    side := .SELL, baseAmount := 500000000, quoteAmount := 589600000
    price := 117920000, expiresAt := 1000, status := .OPEN, createdAt := 0 }

/-- Witness state: the balances above plus the OPEN quote q1. -/
def exampleDB : DB :=
  { balances := exampleBalances, quotes := insertQuote emptyQuotes "q1" exampleQuote
    trades := [] }

/-- The trade row the commit routine inserts for a successful BUY of 5 EUR
against USDT at 1.17920000 on `exampleDB`. -/
def exampleBuyTrade : TradeRow :=
  { id := "t1", accountId := "a1", quoteId := none, type := .MARKET
    baseCurrency := "EUR", quoteCurrency := "USDT", side := .BUY
    baseAmount := 500000000, quoteAmount := 589600000, price := 117920000
    executedAt := 100, createdAt := 100 }

/-- The trade row a successful execution of quote q1 inserts. -/
def exampleRfqTrade : TradeRow :=
  { exampleBuyTrade with
    quoteId := some "q1"
    type := .RFQ
    side := .SELL }

/-- Witness state holding an already-EXECUTED copy of quote q1 under id q2. -/
def exampleExecutedDB : DB :=
  { balances := exampleBalances
    quotes := insertQuote emptyQuotes "q2" { exampleQuote with
      id := "q2"
      status := .EXECUTED }
    trades := [] }

/-- Models the event-loop schedule of two concurrent `executeRfqTrade` calls
against the same quote id: each call's awaited SELECT resolves in its own
microtask before either continuation (validation + the synchronous SQLite
transaction) runs, so both continuations validate the same OPEN snapshot.
The transaction contains no status guard — its quote UPDATE is keyed on id
only — so nothing stops the second commit. -/
def twoConcurrentRfq (db : DB) (now : Int) (acct : AccountId) (qid : QuoteId)
    (tidA tidB : String) : DB × Except Err TradeRow × Except Err TradeRow :=
  let sA := rfqSelect db qid
  let sB := rfqSelect db qid
  let rA := rfqContinue db sA now acct qid tidA
  let rB := rfqContinue rA.1 sB now acct qid tidB
  (rB.1, rA.2, rB.2)

/-! ## Theorems -/

/-- C5 counterexample: the claim says `fromScaled(-150000000) = "-1.50000000"`
(sign prefixing the whole rendered value).  The code floors the integer part
and takes the absolute remainder separately, so it actually renders
`"-2.50000000"` — which is not the decimal value -1.5 at all. -/
theorem fromScaled_neg_counterexample :
    fromScaled (-150000000) = "-2.50000000" ∧
      specFromScaled (-150000000) = "-1.50000000" ∧
      fromScaled (-150000000) ≠ "-1.50000000" := by
  decide

/-- C5 amended: for every nonnegative scaled integer s, `fromScaled s`
renders the decimal value s / 10^8 with exactly 8 zero-padded fractional
digits and no scientific notation (it agrees with the spec's rendering
`specFromScaled`); for negative inputs the code deviates as witnessed by
the counterexample. -/
theorem fromScaled_nonneg_renders_spec (s : Int) (hs : 0 ≤ s) :
    fromScaled s = specFromScaled s := by
  obtain ⟨n, rfl⟩ := Int.eq_ofNat_of_zero_le hs
  unfold fromScaled specFromScaled
  rw [if_neg (by omega)]
  show toString ((n : Int).fdiv SCALE) ++ _ ++ _ = _
  rw [show (n : Int).fdiv SCALE = ((n / 100000000 : ℕ) : Int) from (Int.ofNat_fdiv n 100000000).symm]
  rfl

/-- C5 amended, witness at s = 117920000 (1.1792). -/
theorem fromScaled_nonneg_renders_spec_witness :
    (0 : Int) ≤ 117920000 ∧ fromScaled 117920000 = specFromScaled 117920000 :=
  ⟨by decide, fromScaled_nonneg_renders_spec 117920000 (by decide)⟩

/-- C9 counterexample: `scaledMultiply` divides with JavaScript `BigInt`
division, which truncates toward zero; the claim's ⌊(a×b)/10^8⌋ is floor
division (`Int.fdiv`, since 10^8 > 0).  At a = -1, b = 1 — both inside the
64-bit scaled range — the code returns 0 while the floor is -1. -/
theorem scaledMultiply_floor_counterexample :
    scaledMultiply (-1) 1 = 0 ∧ Int.fdiv ((-1) * 1) SCALE = -1 ∧
      scaledMultiply (-1) 1 ≠ Int.fdiv ((-1) * 1) SCALE := by
  decide

/-- For a nonnegative product — every monetary use — truncating division by
the positive SCALE agrees with floor division. -/
theorem scaledMultiply_eq_fdiv_of_nonneg (a b : Int) (h : 0 ≤ a * b) :
    scaledMultiply a b = Int.fdiv (a * b) SCALE :=
  (Int.fdiv_eq_tdiv h (by decide)).symm

/-- C9 amended: `scaledMultiply a b` equals ⌊(a×b)/10^8⌋ whenever the
product is nonnegative (every monetary use: amounts and prices are
nonnegative), and equals the quotient rounded toward zero,
-⌊-(a×b)/10^8⌋, when the product is negative.  The BigInt intermediate is
exact at any magnitude; the final `Number(result)` coercion (modelled as
the identity) is additionally exact while the quotient stays within the
double safe-integer range. -/
theorem scaledMultiply_rounds_toward_zero (a b : Int) :
    (0 ≤ a * b → scaledMultiply a b = Int.fdiv (a * b) SCALE) ∧
      (a * b < 0 → scaledMultiply a b = -(Int.fdiv (-(a * b)) SCALE)) := by
  constructor
  · exact scaledMultiply_eq_fdiv_of_nonneg a b
  · intro hn
    have h1 : scaledMultiply a b = -(Int.tdiv (-(a * b)) SCALE) := by
      unfold scaledMultiply
      rw [← Int.neg_tdiv, Int.neg_neg]
    rw [h1, Int.fdiv_eq_tdiv (by omega) (by decide)]

/-- C9 amended, witness: 3 × 2 (scaled) = 6 (scaled), a nonnegative product
where the result is the floor. -/
theorem scaledMultiply_rounds_toward_zero_witness :
    (0 : Int) ≤ 300000000 * 200000000 ∧
      scaledMultiply 300000000 200000000 = Int.fdiv (300000000 * 200000000) SCALE :=
  ⟨by decide, (scaledMultiply_rounds_toward_zero 300000000 200000000).1 (by decide)⟩

/-- C4: the claim (and the source's own comments and README) say the quote
execution price is ask + markup for BUY and bid - markup for SELL, with
`SPREAD_MARKUP = 0.001` a fixed configuration constant.  The code imports
`SPREAD_MARKUP` but never applies it: `getBestQuote` returns the best raw
venue price, which for Binance bid 1.17910000 / ask 1.17930000 is the raw
ask 117930000 for BUY and the raw bid 117910000 for SELL — differing from
the markup-adjusted price under either reading of "plus the constant"
(adding the scaled constant, or multiplying by 1 ± 0.001). -/
theorem executionPrice_ignores_markup :
    getExecutionPrice 117910000 117930000 .BUY = 117930000 ∧
      getExecutionPrice 117910000 117930000 .SELL = 117910000 ∧
      (117930000 : Int) ≠ 117930000 + SPREAD_MARKUP_SCALED ∧
      (117930000 : Int) ≠ jsRoundScale 117930000 1001 1000 ∧
      (117910000 : Int) ≠ 117910000 - SPREAD_MARKUP_SCALED ∧
      (117910000 : Int) ≠ jsRoundScale 117910000 999 1000 := by
  decide

/-- C10: for every configured pair, calling the market-trade path with the
reversed orientation (base := configured quote, quote := configured base)
passes the pair check, resolves the same Binance symbol through `findPair`'s
`quote++base` alternative, and therefore uses the same scaled market price
as the configured orientation — never inverting it. -/
theorem reversed_pair_same_price (p : SupportedPair) (fetch : String → Int)
    (hp : p ∈ SUPPORTED_PAIRS) :
    pairSupported p.quote p.base = true ∧
      getMarketPrice fetch p.quote p.base = .ok (fetch p.symbol) ∧
      getMarketPrice fetch p.quote p.base = getMarketPrice fetch p.base p.quote ∧
      ∀ db now acct side amt tid,
        executeMarketTrade db now acct p.quote p.base side amt tid fetch =
          executeTrade db acct p.quote p.base side amt (fetch p.symbol) .MARKET
            none tid now := by
  simp only [SUPPORTED_PAIRS, List.mem_cons, List.mem_singleton, List.not_mem_nil,
    or_false] at hp
  rcases hp with rfl | rfl
  · exact ⟨by decide, rfl, rfl, fun db now acct side amt tid => rfl⟩
  · exact ⟨by decide, rfl, rfl, fun db now acct side amt tid => rfl⟩

/-- C10 witness at the EUR/USDT pair with a constant fetched price. -/
theorem reversed_pair_same_price_witness :
    (⟨"EURUSDT", "EUR", "USDT"⟩ : SupportedPair) ∈ SUPPORTED_PAIRS ∧
      pairSupported "USDT" "EUR" = true ∧
      getMarketPrice (fun _ => (117920000 : Int)) "USDT" "EUR" = .ok 117920000 ∧
      getMarketPrice (fun _ => (117920000 : Int)) "USDT" "EUR" =
        getMarketPrice (fun _ => (117920000 : Int)) "EUR" "USDT" := by
  have h := reversed_pair_same_price ⟨"EURUSDT", "EUR", "USDT"⟩
    (fun _ => (117920000 : Int)) (by decide)
  exact ⟨by decide, h.1, h.2.1, h.2.2.1⟩

/-- C1 counterexample: with no balance row for the key, the current balance
is 0 (`getBalance` returns 0), so for amount 0 the claim's guard
0 ≥ 0 holds and the claim requires the debit to succeed; but the
conditional UPDATE affects no row, so the code raises InsufficientBalance
even though the current balance is not below the amount. -/
theorem debit_missing_row_counterexample :
    getBalance emptyBalances "acct-1" "EUR" = 0 ∧
      ¬ getBalance emptyBalances "acct-1" "EUR" < 0 ∧
      debit emptyBalances "acct-1" "EUR" 0 = .error .InsufficientBalance :=
  ⟨rfl, by decide, rfl⟩

/-- C1 amended: when a balance row exists with stored amount v, debit
succeeds and decreases exactly that row by the amount iff amount ≤ v, and
fails with InsufficientBalance (returning no state: the transaction wrapper
keeps the unchanged pre-state) iff v < amount; when no row exists, debit
always fails with InsufficientBalance — even for amounts ≤ 0, where the
claim's guard "current balance (0) ≥ amount" would have required success. -/
theorem debit_guard_spec (bs : Balances) (a : AccountId) (c : Ccy) (amt v : Int) :
    (bs a c = some v →
      (amt ≤ v →
        debit bs a c amt = .ok (updateBal bs a c (v - amt)) ∧
          getBalance (updateBal bs a c (v - amt)) a c = getBalance bs a c - amt ∧
          ∀ a' c', ¬(a' = a ∧ c' = c) → updateBal bs a c (v - amt) a' c' = bs a' c') ∧
      (v < amt → debit bs a c amt = .error .InsufficientBalance)) ∧
      (bs a c = none → debit bs a c amt = .error .InsufficientBalance) := by
  refine ⟨fun hrow => ⟨fun hle => ⟨?_, ?_, ?_⟩, fun hlt => ?_⟩, fun hnone => ?_⟩
  · simp [debit, hrow, hle]
  · simp [getBalance, updateBal, hrow]
  · intro a' c' hne
    simp [updateBal, hne]
  · simp [debit, hrow, Int.not_le.mpr hlt]
  · simp [debit, hnone]

/-- C1 amended, witness: a row holding 5 debited by 3 leaves 2. -/
theorem debit_guard_spec_witness :
    debit (updateBal emptyBalances "acct-1" "EUR" 5) "acct-1" "EUR" 3 =
      .ok (updateBal (updateBal emptyBalances "acct-1" "EUR" 5) "acct-1" "EUR" 2) :=
  (((debit_guard_spec (updateBal emptyBalances "acct-1" "EUR" 5) "acct-1" "EUR" 3 5).1
    (by decide)).1 (by decide)).1

/-- C2: every successful run of the commit routine (`executeTrade` →
`executeTradeTx`) debits the quote currency by quoteAmount and credits the
base currency by baseAmount for BUY, and debits the base currency by
baseAmount and credits the quote currency by quoteAmount for SELL; the
inserted trade's quoteAmount is ⌊baseAmount × price / 10^8⌋ computed from
the very price stored on the trade record.  The hypotheses reflect every
reachable commit: request amounts are validated positive, prices come from
positive price feeds, and both pair checks reject base = quote. -/
theorem trade_commit_spec (db : DB) (acct : AccountId) (base quote : Ccy)
    (side : Side) (baseAmount price : Int) (type : TradeType)
    (quoteId : Option QuoteId) (tid : String) (now : Int)
    (db' : DB) (t : TradeRow)
    (hba : 0 ≤ baseAmount) (hpr : 0 ≤ price) (hbq : base ≠ quote)
    (h : executeTrade db acct base quote side baseAmount price type quoteId tid now
      = (db', .ok t)) :
    t.price = price ∧ t.baseAmount = baseAmount ∧
      t.quoteAmount = Int.fdiv (t.baseAmount * t.price) SCALE ∧
      getBalance db'.balances acct (if side = .BUY then quote else base) =
        getBalance db.balances acct (if side = .BUY then quote else base) -
          (if side = .BUY then t.quoteAmount else t.baseAmount) ∧
      getBalance db'.balances acct (if side = .BUY then base else quote) =
        getBalance db.balances acct (if side = .BUY then base else quote) +
          (if side = .BUY then t.baseAmount else t.quoteAmount) := by
  have hfdiv : scaledMultiply baseAmount price = Int.fdiv (baseAmount * price) SCALE :=
    scaledMultiply_eq_fdiv_of_nonneg baseAmount price (Int.mul_nonneg hba hpr)
  cases side
  case BUY =>
    simp only [executeTrade, executeTradeTx, eq_self_iff_true, if_true] at h
    rcases hd : debit db.balances acct quote (scaledMultiply baseAmount price) with e | bs1
    · rw [hd] at h
      simp at h
    · rw [hd] at h
      simp only [Prod.mk.injEq, Except.ok.injEq] at h
      obtain ⟨hdb, ht⟩ := h
      subst hdb
      subst ht
      refine ⟨rfl, rfl, by simpa using hfdiv, ?_, ?_⟩
      all_goals
        simp only [eq_self_iff_true, if_true]
      all_goals
        rcases hv : db.balances acct quote with _ | v
        · simp [debit, hv] at hd
        · simp only [debit, hv] at hd
          by_cases hok : scaledMultiply baseAmount price ≤ v
          · rw [if_pos hok] at hd
            simp only [Except.ok.injEq] at hd
            subst hd
            rcases hw : db.balances acct base with _ | w <;>
              simp [getBalance, credit, updateBal, hv, hw, hbq, Ne.symm hbq]
          · rw [if_neg hok] at hd
            simp at hd
  case SELL =>
    simp only [executeTrade, executeTradeTx, reduceCtorEq, if_false] at h
    rcases hd : debit db.balances acct base baseAmount with e | bs1
    · rw [hd] at h
      simp at h
    · rw [hd] at h
      simp only [Prod.mk.injEq, Except.ok.injEq] at h
      obtain ⟨hdb, ht⟩ := h
      subst hdb
      subst ht
      refine ⟨rfl, rfl, by simpa using hfdiv, ?_, ?_⟩
      all_goals
        simp only [reduceCtorEq, if_false]
      all_goals
        rcases hv : db.balances acct base with _ | v
        · simp [debit, hv] at hd
        · simp only [debit, hv] at hd
          by_cases hok : baseAmount ≤ v
          · rw [if_pos hok] at hd
            simp only [Except.ok.injEq] at hd
            subst hd
            rcases hw : db.balances acct quote with _ | w <;>
              simp [getBalance, credit, updateBal, hv, hw, hbq, Ne.symm hbq]
          · rw [if_neg hok] at hd
            simp at hd

/-- C2 witness: a concrete successful BUY debits 5.896 USDT and credits
5 EUR, with quoteAmount the floor of baseAmount × price / 10^8. -/
theorem trade_commit_spec_witness :
    exampleBuyTrade.quoteAmount =
      Int.fdiv (exampleBuyTrade.baseAmount * exampleBuyTrade.price) SCALE ∧
      getBalance (executeTrade exampleDB "a1" "EUR" "USDT" .BUY 500000000 117920000
          .MARKET none "t1" 100).1.balances "a1" "USDT" =
        getBalance exampleDB.balances "a1" "USDT" - exampleBuyTrade.quoteAmount ∧
      getBalance (executeTrade exampleDB "a1" "EUR" "USDT" .BUY 500000000 117920000
          .MARKET none "t1" 100).1.balances "a1" "EUR" =
        getBalance exampleDB.balances "a1" "EUR" + exampleBuyTrade.baseAmount := by
  have h := trade_commit_spec exampleDB "a1" "EUR" "USDT" .BUY 500000000 117920000
    .MARKET none "t1" 100
    (executeTrade exampleDB "a1" "EUR" "USDT" .BUY 500000000 117920000
      .MARKET none "t1" 100).1 exampleBuyTrade
    (by decide) (by decide) (by decide) rfl
  exact ⟨h.2.2.1, h.2.2.2.1, h.2.2.2.2⟩

/-- C6: (1) every quote `createQuote` stores satisfies
quoteAmount = scaledMultiply(baseAmount, price); (2) every RFQ trade that
commits successfully from a stored quote satisfying that equation carries
the quote's baseAmount, quoteAmount and price verbatim on the inserted
trade record — the commit recomputes quoteAmount with the same
deterministic `scaledMultiply` from the same frozen inputs, so no drift is
possible. -/
theorem rfq_trade_frozen_amounts :
    (∀ db now acct base quote side amt price qid db2 q,
      createQuote db now acct base quote side amt price qid = (db2, Except.ok q) →
        q.quoteAmount = scaledMultiply q.baseAmount q.price ∧
          q.baseAmount = amt ∧ q.price = price) ∧
      (∀ db now acct qid tid q db' t,
        db.quotes qid = some q →
          q.quoteAmount = scaledMultiply q.baseAmount q.price →
          executeRfqTrade db now acct qid tid = (db', Except.ok t) →
          t.baseAmount = q.baseAmount ∧ t.quoteAmount = q.quoteAmount ∧
            t.price = q.price) := by
  constructor
  · intro db now acct base quote side amt price qid db2 q h
    unfold createQuote at h
    by_cases hps : pairSupported base quote
    · rw [if_pos hps] at h
      rcases hq : db.quotes qid with _ | q0
      · simp only [hq] at h
        simp only [Prod.mk.injEq, Except.ok.injEq] at h
        obtain ⟨-, ht⟩ := h
        subst ht
        exact ⟨rfl, rfl, rfl⟩
      · simp only [hq] at h
        simp at h
    · rw [if_neg hps] at h
      simp at h
  · intro db now acct qid tid q db' t hq hinv h
    unfold executeRfqTrade rfqContinue rfqSelect at h
    simp only [hq] at h
    by_cases hown : q.accountId ≠ acct
    · rw [if_pos hown] at h
      simp at h
    · rw [if_neg hown] at h
      by_cases hex : q.status = .EXECUTED
      · rw [if_pos hex] at h
        simp at h
      · rw [if_neg hex] at h
        by_cases hexp : q.status = .EXPIRED ∨ q.expiresAt < now
        · rw [if_pos hexp] at h
          simp at h
        · rw [if_neg hexp] at h
          unfold executeTrade at h
          rcases htx : executeTradeTx db acct q.baseCurrency q.quoteCurrency q.side
              q.baseAmount (scaledMultiply q.baseAmount q.price) q.price .RFQ
              (some qid) tid now with e | db2
          · simp only [htx] at h
            simp at h
          · simp only [htx] at h
            simp only [Prod.mk.injEq, Except.ok.injEq] at h
            obtain ⟨-, ht⟩ := h
            subst ht
            exact ⟨rfl, hinv.symm, rfl⟩

/-- C6 witness: executing the OPEN quote q1 on `exampleDB` yields a trade
carrying the quote's frozen amounts and price. -/
theorem rfq_trade_frozen_amounts_witness :
    (executeRfqTrade exampleDB 100 "a1" "q1" "t1").2 = Except.ok exampleRfqTrade ∧
      exampleRfqTrade.baseAmount = exampleQuote.baseAmount ∧
      exampleRfqTrade.quoteAmount = exampleQuote.quoteAmount ∧
      exampleRfqTrade.price = exampleQuote.price := by
  have h := rfq_trade_frozen_amounts.2 exampleDB 100 "a1" "q1" "t1" exampleQuote
    (executeRfqTrade exampleDB 100 "a1" "q1" "t1").1 exampleRfqTrade
    (by decide) (by decide) rfl
  exact ⟨rfl, h⟩

/-- Helper: `debit` only ever raises InsufficientBalance. -/
theorem debit_error_kind (bs : Balances) (a : AccountId) (c : Ccy) (amt : Int)
    (e1 : Err) (hd : debit bs a c amt = Except.error e1) :
    e1 = Err.InsufficientBalance := by
  unfold debit at hd
  rcases hv : bs a c with _ | v
  · simp only [hv, Except.error.injEq] at hd
    exact hd.symm
  · simp only [hv] at hd
    by_cases hok : amt ≤ v
    · rw [if_pos hok] at hd
      simp at hd
    · rw [if_neg hok] at hd
      simp only [Except.error.injEq] at hd
      exact hd.symm

/-- Helper: the commit routine can only fail in its first step, the debit,
so `executeTrade` errors are always InsufficientBalance and return the
untouched pre-state (the transaction rolled back). -/
theorem executeTrade_error (db : DB) (acct : AccountId) (base quote : Ccy)
    (side : Side) (baseAmount price : Int) (type : TradeType)
    (quoteId : Option QuoteId) (tid : String) (now : Int) (db' : DB) (e : Err)
    (h : executeTrade db acct base quote side baseAmount price type quoteId tid now
      = (db', Except.error e)) :
    db' = db ∧ e = Err.InsufficientBalance := by
  cases side
  case BUY =>
    simp only [executeTrade, executeTradeTx, eq_self_iff_true, if_true] at h
    rcases hd : debit db.balances acct quote (scaledMultiply baseAmount price)
      with e0 | bs1
    · simp only [hd, Prod.mk.injEq, Except.error.injEq] at h
      exact ⟨h.1.symm, h.2.symm.trans (debit_error_kind _ _ _ _ _ hd)⟩
    · simp only [hd] at h
      simp at h
  case SELL =>
    simp only [executeTrade, executeTradeTx, reduceCtorEq, if_false] at h
    rcases hd : debit db.balances acct base baseAmount with e0 | bs1
    · simp only [hd, Prod.mk.injEq, Except.error.injEq] at h
      exact ⟨h.1.symm, h.2.symm.trans (debit_error_kind _ _ _ _ _ hd)⟩
    · simp only [hd] at h
      simp at h

/-- C7: whenever `executeRfqTrade` fails with NotFound,
QuoteAlreadyExecuted or QuoteExpired, no balance row and no trade row
changes, every other quote is untouched, and the rejected quote itself is
either untouched or (on the lazy-expiry path only) moved from OPEN to
EXPIRED. -/
theorem rfq_rejection_leaves_ledger (db : DB) (now : Int) (acct : AccountId)
    (qid : QuoteId) (tid : String) (db' : DB) (e : Err)
    (h : executeRfqTrade db now acct qid tid = (db', Except.error e))
    (he : e = Err.NotFound ∨ e = Err.QuoteAlreadyExecuted ∨ e = Err.QuoteExpired) :
    db'.balances = db.balances ∧ db'.trades = db.trades ∧
      (∀ id, id ≠ qid → db'.quotes id = db.quotes id) ∧
      (db'.quotes qid = db.quotes qid ∨
        ∃ q, db.quotes qid = some q ∧ q.status = QuoteStatus.OPEN ∧
          db'.quotes qid = some { q with status := QuoteStatus.EXPIRED }) := by
  unfold executeRfqTrade rfqContinue rfqSelect at h
  rcases hq : db.quotes qid with _ | q
  · simp only [hq, Prod.mk.injEq] at h
    obtain ⟨hdb, -⟩ := h
    subst hdb
    exact ⟨rfl, rfl, fun id _ => rfl, Or.inl hq⟩
  · simp only [hq] at h
    by_cases hown : q.accountId ≠ acct
    · rw [if_pos hown] at h
      simp only [Prod.mk.injEq] at h
      obtain ⟨hdb, -⟩ := h
      subst hdb
      exact ⟨rfl, rfl, fun id _ => rfl, Or.inl hq⟩
    · rw [if_neg hown] at h
      by_cases hex : q.status = QuoteStatus.EXECUTED
      · rw [if_pos hex] at h
        simp only [Prod.mk.injEq] at h
        obtain ⟨hdb, -⟩ := h
        subst hdb
        exact ⟨rfl, rfl, fun id _ => rfl, Or.inl hq⟩
      · rw [if_neg hex] at h
        by_cases hexp : q.status = QuoteStatus.EXPIRED ∨ q.expiresAt < now
        · rw [if_pos hexp] at h
          by_cases hst : q.status = QuoteStatus.EXPIRED
          · rw [if_pos hst] at h
            simp only [Prod.mk.injEq] at h
            obtain ⟨hdb, -⟩ := h
            subst hdb
            exact ⟨rfl, rfl, fun id _ => rfl, Or.inl hq⟩
          · rw [if_neg hst] at h
            simp only [Prod.mk.injEq] at h
            obtain ⟨hdb, -⟩ := h
            subst hdb
            have hopen : q.status = QuoteStatus.OPEN := by
              cases hqs : q.status
              · rfl
              · exact absurd hqs hex
              · exact absurd hqs hst
            refine ⟨rfl, rfl, fun id hid => ?_, Or.inr ⟨q, rfl, hopen, ?_⟩⟩
            · simp [setQuoteStatus, hid]
            · simp [setQuoteStatus, hq]
        · rw [if_neg hexp] at h
          obtain ⟨hdb, hins⟩ := executeTrade_error db acct q.baseCurrency
            q.quoteCurrency q.side q.baseAmount q.price .RFQ (some qid) tid now db' e h
          subst hins
          rcases he with he | he | he <;> simp at he

theorem rfq_rejection_leaves_ledger_witness :
    (executeRfqTrade exampleExecutedDB 100 "a1" "q2" "t9").2 =
        Except.error Err.QuoteAlreadyExecuted ∧
      (executeRfqTrade exampleExecutedDB 100 "a1" "q2" "t9").1.balances =
        exampleExecutedDB.balances ∧
      (executeRfqTrade exampleExecutedDB 100 "a1" "q2" "t9").1.trades =
        exampleExecutedDB.trades := by
  have h := rfq_rejection_leaves_ledger exampleExecutedDB 100 "a1" "q2" "t9"
    (executeRfqTrade exampleExecutedDB 100 "a1" "q2" "t9").1
    Err.QuoteAlreadyExecuted rfl (Or.inr (Or.inl rfl))
  exact ⟨rfl, h.1, h.2.1⟩

/-- Helper: a successful transaction sets EXECUTED on its quote id (RFQ) or
leaves the quotes table untouched (market). -/
theorem executeTradeTx_ok_quotes (db : DB) (acct : AccountId)
    (base quote : Ccy) (side : Side) (baseAmount quoteAmount price : Int)
    (type : TradeType) (quoteId : Option QuoteId) (tid : String) (now : Int)
    (db2 : DB)
    (h : executeTradeTx db acct base quote side baseAmount quoteAmount price
      type quoteId tid now = Except.ok db2) :
    (quoteId = none ∧ db2.quotes = db.quotes) ∨
      ∃ qid2, quoteId = some qid2 ∧
        db2.quotes = setQuoteStatus db.quotes qid2 QuoteStatus.EXECUTED := by
  simp only [executeTradeTx] at h
  rcases hd : debit db.balances acct (if side = Side.BUY then quote else base)
      (if side = Side.BUY then quoteAmount else baseAmount) with e | bs1
  · simp only [hd] at h
    simp at h
  · simp only [hd, Except.ok.injEq] at h
    subst h
    cases quoteId with
    | none => exact Or.inl ⟨rfl, rfl⟩
    | some qid2 => exact Or.inr ⟨qid2, rfl, rfl⟩

/-- Helper: the commit routine either leaves the quotes table untouched or
marks exactly its own RFQ quote id EXECUTED. -/
theorem executeTrade_fst_quotes (db : DB) (acct : AccountId)
    (base quote : Ccy) (side : Side) (baseAmount price : Int)
    (type : TradeType) (quoteId : Option QuoteId) (tid : String) (now : Int) :
    ((executeTrade db acct base quote side baseAmount price type quoteId tid
        now).1).quotes = db.quotes ∨
      ∃ qid2, quoteId = some qid2 ∧
        ((executeTrade db acct base quote side baseAmount price type quoteId
            tid now).1).quotes = setQuoteStatus db.quotes qid2 QuoteStatus.EXECUTED := by
  simp only [executeTrade]
  rcases htx : executeTradeTx db acct base quote side baseAmount
      (scaledMultiply baseAmount price) price type quoteId tid now with e | db2
  · exact Or.inl rfl
  · have hsh := executeTradeTx_ok_quotes db acct base quote side baseAmount
      (scaledMultiply baseAmount price) price type quoteId tid now db2 htx
    rcases hsh with ⟨hn, hun⟩ | ⟨qid2, hs, hset⟩
    · exact Or.inl hun
    · exact Or.inr ⟨qid2, hs, hset⟩

/-- Helper: one public operation either keeps a stored quote's status or
moves it out of OPEN — the one-way step of the claimed state machine. -/
theorem applyOp_status_step (db : DB) (op : Op) (qid : QuoteId) (q : QuoteRow)
    (hq : db.quotes qid = some q) :
    ∃ q', (applyOp db op).quotes qid = some q' ∧
      (q'.status = q.status ∨ q.status = QuoteStatus.OPEN) := by
  cases op with
  | create now acct base quote side amt price qid2 =>
    by_cases hps : pairSupported base quote = true
    · rcases hq2 : db.quotes qid2 with _ | q0
      · have hne : qid ≠ qid2 := by
          intro hh
          rw [hh, hq2] at hq
          exact Option.noConfusion hq
        refine ⟨q, ?_, Or.inl rfl⟩
        simp only [applyOp, createQuote, if_pos hps, hq2]
        simp [insertQuote, hne, hq]
      · refine ⟨q, ?_, Or.inl rfl⟩
        simp only [applyOp, createQuote, if_pos hps, hq2]
        exact hq
    · refine ⟨q, ?_, Or.inl rfl⟩
      simp only [applyOp, createQuote, if_neg hps]
      exact hq
  | read now acct qid2 =>
    rcases hq2 : db.quotes qid2 with _ | row
    · refine ⟨q, ?_, Or.inl rfl⟩
      simp only [applyOp, getQuote, hq2]
      exact hq
    · by_cases hown : row.accountId ≠ acct
      · refine ⟨q, ?_, Or.inl rfl⟩
        simp only [applyOp, getQuote, hq2, if_pos hown]
        exact hq
      · by_cases hexp : row.status = QuoteStatus.OPEN ∧ row.expiresAt < now
        · by_cases hne : qid = qid2
          · subst hne
            have hrow : row = q := Option.some.inj (hq2.symm.trans hq)
            refine ⟨{ q with status := QuoteStatus.EXPIRED }, ?_, Or.inr ?_⟩
            · simp only [applyOp, getQuote, hq2, if_neg hown, if_pos hexp]
              simp [setQuoteStatus, hq]
            · rw [← hrow]
              exact hexp.1
          · refine ⟨q, ?_, Or.inl rfl⟩
            simp only [applyOp, getQuote, hq2, if_neg hown, if_pos hexp]
            simp [setQuoteStatus, hne, hq]
        · refine ⟨q, ?_, Or.inl rfl⟩
          simp only [applyOp, getQuote, hq2, if_neg hown, if_neg hexp]
          exact hq
  | rfq now acct qid2 tid =>
    rcases hq2 : db.quotes qid2 with _ | row
    · refine ⟨q, ?_, Or.inl rfl⟩
      simp only [applyOp, executeRfqTrade, rfqContinue, rfqSelect, hq2]
      exact hq
    · by_cases hown : row.accountId ≠ acct
      · refine ⟨q, ?_, Or.inl rfl⟩
        simp only [applyOp, executeRfqTrade, rfqContinue, rfqSelect, hq2, if_pos hown]
        exact hq
      · by_cases hex : row.status = QuoteStatus.EXECUTED
        · refine ⟨q, ?_, Or.inl rfl⟩
          simp only [applyOp, executeRfqTrade, rfqContinue, rfqSelect, hq2,
            if_neg hown, if_pos hex]
          exact hq
        · by_cases hexp : row.status = QuoteStatus.EXPIRED ∨ row.expiresAt < now
          · by_cases hst : row.status = QuoteStatus.EXPIRED
            · refine ⟨q, ?_, Or.inl rfl⟩
              simp only [applyOp, executeRfqTrade, rfqContinue, rfqSelect, hq2,
                if_neg hown, if_neg hex, if_pos hexp, if_pos hst]
              exact hq
            · by_cases hne : qid = qid2
              · subst hne
                have hrow : row = q := Option.some.inj (hq2.symm.trans hq)
                have hopen : q.status = QuoteStatus.OPEN := by
                  rw [← hrow]
                  cases hcs : row.status
                  · rfl
                  · exact absurd hcs hex
                  · exact absurd hcs hst
                refine ⟨{ q with status := QuoteStatus.EXPIRED }, ?_, Or.inr hopen⟩
                simp only [applyOp, executeRfqTrade, rfqContinue, rfqSelect, hq2,
                  if_neg hown, if_neg hex, if_pos hexp, if_neg hst]
                simp [setQuoteStatus, hq]
              · refine ⟨q, ?_, Or.inl rfl⟩
                simp only [applyOp, executeRfqTrade, rfqContinue, rfqSelect, hq2,
                  if_neg hown, if_neg hex, if_pos hexp, if_neg hst]
                simp [setQuoteStatus, hne, hq]
          · have hopen : row.status = QuoteStatus.OPEN := by
              cases hcs : row.status
              · rfl
              · exact absurd hcs hex
              · exact absurd hcs (fun hh => hexp (Or.inl hh))
            have hquotes := executeTrade_fst_quotes db acct row.baseCurrency
              row.quoteCurrency row.side row.baseAmount row.price .RFQ
              (some qid2) tid now
            have happ : (applyOp db (Op.rfq now acct qid2 tid)).quotes =
                ((executeTrade db acct row.baseCurrency row.quoteCurrency
                  row.side row.baseAmount row.price .RFQ (some qid2) tid
                  now).1).quotes := by
              simp only [applyOp, executeRfqTrade, rfqContinue, rfqSelect, hq2,
                if_neg hown, if_neg hex, if_neg hexp]
            rcases hquotes with hun | ⟨qid3, hq3, hset⟩
            · refine ⟨q, ?_, Or.inl rfl⟩
              rw [happ, hun]
              exact hq
            · have hq32 : qid3 = qid2 := (Option.some.inj hq3).symm
              subst hq32
              by_cases hne : qid = qid3
              · subst hne
                have hrow : row = q := Option.some.inj (hq2.symm.trans hq)
                refine ⟨{ q with status := QuoteStatus.EXECUTED }, ?_,
                  Or.inr (hrow ▸ hopen)⟩
                rw [happ, hset]
                simp [setQuoteStatus, hq]
              · refine ⟨q, ?_, Or.inl rfl⟩
                rw [happ, hset]
                simp [setQuoteStatus, hne, hq]
  | market now acct base quote side amt tid fetch =>
    by_cases hps : pairSupported base quote = true
    · rcases hmp : getMarketPrice fetch base quote with e | price
      · refine ⟨q, ?_, Or.inl rfl⟩
        simp only [applyOp, executeMarketTrade, if_pos hps, hmp]
        exact hq
      · have hquotes := executeTrade_fst_quotes db acct base quote side amt
          price .MARKET none tid now
        rcases hquotes with hun | ⟨qid3, hq3, -⟩
        · refine ⟨q, ?_, Or.inl rfl⟩
          simp only [applyOp, executeMarketTrade, if_pos hps, hmp]
          rw [hun]
          exact hq
        · exact Option.noConfusion hq3
    · refine ⟨q, ?_, Or.inl rfl⟩
      simp only [applyOp, executeMarketTrade, if_neg hps]
      exact hq

/-- C8: across any sequence of the public operations (createQuote, getQuote,
executeRfqTrade, executeMarketTrade), every stored quote stays stored and
its status either never changes or started OPEN — i.e. the only transitions
are OPEN→EXECUTED and OPEN→EXPIRED, and EXECUTED / EXPIRED are terminal. -/
theorem quote_status_one_way (ops : List Op) (db : DB) (qid : QuoteId)
    (q : QuoteRow) (hq : db.quotes qid = some q) :
    ∃ q', (applyOps db ops).quotes qid = some q' ∧
      (q'.status = q.status ∨ q.status = QuoteStatus.OPEN) := by
  induction ops generalizing db q with
  | nil => exact ⟨q, hq, Or.inl rfl⟩
  | cons op rest ih =>
    obtain ⟨q1, hq1, hstep⟩ := applyOp_status_step db op qid q hq
    obtain ⟨q2, hq2, hrest⟩ := ih (applyOp db op) q1 hq1
    refine ⟨q2, hq2, ?_⟩
    by_cases hOpen : q.status = QuoteStatus.OPEN
    · exact Or.inr hOpen
    · rcases hstep with h1 | h1
      · rcases hrest with h2 | h2
        · exact Or.inl (h2.trans h1)
        · exact absurd (h1.symm.trans h2) hOpen
      · exact absurd h1 hOpen

/-- C8 witness: executing quote q1 once on `exampleDB` keeps it stored with
a status reachable one-way from OPEN. -/
theorem quote_status_one_way_witness :
    ∃ q', (applyOps exampleDB [Op.rfq 100 "a1" "q1" "t1"]).quotes "q1" = some q' ∧
      (q'.status = exampleQuote.status ∨ exampleQuote.status = QuoteStatus.OPEN) :=
  quote_status_one_way [Op.rfq 100 "a1" "q1" "t1"] exampleDB "q1" exampleQuote (by decide)

/-- C3: with quote q1 OPEN and unexpired and the account holding twice the
debit amount, two concurrent `executeRfqTrade` calls whose SELECTs both
complete before either commit BOTH succeed: two Trade rows referencing q1
are inserted, the base currency is debited twice (20 → 10 EUR) and the
quote currency credited twice — instead of the claimed exactly-one success.
A sequential second call is correctly rejected, confirming the status check
itself works and only its placement outside the transaction is at fault. -/
theorem rfq_double_execution :
    (twoConcurrentRfq exampleDB 100 "a1" "q1" "tA" "tB").2.1.isOk = true ∧
      (twoConcurrentRfq exampleDB 100 "a1" "q1" "tA" "tB").2.2.isOk = true ∧
      ((twoConcurrentRfq exampleDB 100 "a1" "q1" "tA" "tB").1.trades.filter
        (fun t => t.quoteId == some "q1")).length = 2 ∧
      getBalance (twoConcurrentRfq exampleDB 100 "a1" "q1" "tA" "tB").1.balances
        "a1" "EUR" = 1000000000 ∧
      getBalance (twoConcurrentRfq exampleDB 100 "a1" "q1" "tA" "tB").1.balances
        "a1" "USDT" = 101179200000 ∧
      (executeRfqTrade (executeRfqTrade exampleDB 100 "a1" "q1" "tA").1 100 "a1"
        "q1" "tB").2 = Except.error Err.QuoteAlreadyExecuted :=
  ⟨by decide, by decide, by decide, by decide, by decide, rfl⟩

end MiniOpenFX